import Mathlib

/-!
Verification of the pg-mem core against its natural-language specification.

The development shallowly embeds the relevant parts of the source:
  * the jsonb structural comparator and SQL-null comparison semantics
    (exercised by the test suite in the repository),
  * the ORDER BY null-placement comparator,
  * the SELECT planning loop (`Query.executeSelect`), including join
    construction and the (dead) duplicate-alias check,
  * `Query.executeUpdate` and `Query.executeInsert`,
  * the transaction `fullCommit` / `fork` discipline used by the
    `DropIndex` and `DropSequence` statement executors.

Definitions come first, then the theorems about them.
-/

namespace PgMem

/-! ## JSON values and the jsonb structural comparator

Modelled from the spec: the comparator implementation (`datatypes.ts`) is not
among the provided sources; only its test suite is.  The spec describes a
rank-then-structural comparison.  The model below follows the spec's words
where they are consistent with the repository's own test truth table
(`orders jsonb values`), and follows the truth table where the spec's prose
conflicts with it: the tests force arrays to rank below the json null value
(`[] < null` holds among jsonb values while `[] >= null` fails) and force
arrays to be compared by length before elements (`[2,2] > [1,2,3]` fails).
Objects are represented as association lists in canonical (sorted, duplicate
free) key order, as produced by parsing a json literal.
-/

inductive JsonValue : Type where
  | jnull : JsonValue
  | jbool : Bool → JsonValue
  | jnum : Int → JsonValue
  | jstr : String → JsonValue
  | jarr : List JsonValue → JsonValue
  | jobj : List (String × JsonValue) → JsonValue

/-- Type rank used for cross-type jsonb comparison.  Arrays rank lowest
(the repository's tests assert that `[]` is below the json `null`),
objects rank highest. -/
def typeRank : JsonValue → Nat
  | .jarr _ => 0
  | .jnull => 1
  | .jbool _ => 2
  | .jnum _ => 3
  | .jstr _ => 4
  | .jobj _ => 5

mutual

/-- Structural three-way comparison of jsonb values: same-rank values are
compared structurally (arrays and objects by size first, then contents),
different ranks by `typeRank`. -/
def cmpJ : JsonValue → JsonValue → Ordering
  | .jnull, .jnull => .eq
  | .jbool a, .jbool b => compare a b
  | .jnum a, .jnum b => compare a b
  | .jstr a, .jstr b => compare a b
  | .jarr xs, .jarr ys =>
    if xs.length = ys.length then cmpArr xs ys
    else compare xs.length ys.length
  | .jobj xs, .jobj ys =>
    if xs.length = ys.length then cmpKvs xs ys
    else compare xs.length ys.length
  | a, b => compare (typeRank a) (typeRank b)

/-- Element-wise comparison of equal-length json arrays. -/
def cmpArr : List JsonValue → List JsonValue → Ordering
  | [], [] => .eq
  | [], _ :: _ => .lt
  | _ :: _, [] => .gt
  | x :: xs, y :: ys =>
    match cmpJ x y with
    | .eq => cmpArr xs ys
    | o => o

/-- Key-then-value comparison of equal-size json objects in canonical key
order. -/
def cmpKvs : List (String × JsonValue) → List (String × JsonValue) → Ordering
  | [], [] => .eq
  | [], _ :: _ => .lt
  | _ :: _, [] => .gt
  | (k1, v1) :: xs, (k2, v2) :: ys =>
    match compare k1 k2 with
    | .eq =>
      match cmpJ v1 v2 with
      | .eq => cmpKvs xs ys
      | o => o
    | o => o

end

/-- Boolean `>` on jsonb values. -/
def jsonbGt (a b : JsonValue) : Bool := cmpJ a b == .gt

/-- Boolean `<` on jsonb values. -/
def jsonbLt (a b : JsonValue) : Bool := cmpJ a b == .lt

/-- Boolean `>=` on jsonb values. -/
def jsonbGe (a b : JsonValue) : Bool := cmpJ a b != .lt

/-- Boolean `<=` on jsonb values. -/
def jsonbLe (a b : JsonValue) : Bool := cmpJ a b != .gt

/-- Boolean `=` on jsonb values (structural equality). -/
def jsonbEq (a b : JsonValue) : Bool := cmpJ a b == .eq

/-! ## SQL NULL comparison semantics

Modelled from the spec: the operator evaluation code is not among the
provided sources.  A binary comparison with a true SQL NULL on either side
yields UNKNOWN, surfaced as a NULL result; otherwise the operator is applied
to the three-way comparison of the operands. -/

inductive CmpOp : Type where
  | eq | lt | le | gt | ge
deriving Repr, DecidableEq

/-- Interpretation of a comparison operator over an `Ordering`. -/
def CmpOp.apply : CmpOp → Ordering → Bool
  | .eq, o => o == .eq
  | .lt, o => o == .lt
  | .le, o => o != .gt
  | .gt, o => o == .gt
  | .ge, o => o != .lt

/-- Evaluate a comparison operator over nullable operands of an arbitrary
value type with three-way comparator `cmp`.  `none` is SQL NULL; a NULL on
either side makes the whole comparison NULL. -/
def evalComparison {V : Type} (cmp : V → V → Ordering) (op : CmpOp) :
    Option V → Option V → Option Bool
  | none, _ => none
  | _, none => none
  | some a, some b => some (op.apply (cmp a b))

/-! ## ORDER BY null placement

Modelled from the spec: the order-by transform is not among the provided
sources (the `executeSelect` in `query.ts` predates it; only its test suite
is provided).  ORDER BY uses a total ordering in which NULL sorts as a
distinct extreme: last for ascending order and first for descending order by
default, overridable per column with explicit NULLS FIRST / NULLS LAST
independent of the ASC/DESC choice. -/

inductive NullsOrder : Type where
  | first | last
deriving Repr, DecidableEq

/-- Per-column ORDER BY directive: direction plus optional NULLS clause. -/
structure OrderSpec : Type where
  desc : Bool
  nulls : Option NullsOrder
deriving Repr, DecidableEq

/-- Whether NULL keys sort before all non-null keys under `s`: an explicit
NULLS clause decides; otherwise descending order places NULL first. -/
def nullsFirstOf (s : OrderSpec) : Bool :=
  match s.nulls with
  | some .first => true
  | some .last => false
  | none => s.desc

/-- Total comparison of nullable sort keys under an ORDER BY directive. -/
def cmpKey (s : OrderSpec) : Option String → Option String → Ordering
  | none, none => .eq
  | none, some _ => if nullsFirstOf s then .lt else .gt
  | some _, none => if nullsFirstOf s then .gt else .lt
  | some x, some y =>
    if s.desc then (compare x y).swap else compare x y

/-- Stable insertion of a key into a list sorted by `cmpKey s`. -/
def insertKey (s : OrderSpec) (x : Option String) :
    List (Option String) → List (Option String)
  | [] => [x]
  | y :: ys =>
    if cmpKey s x y = .lt then x :: y :: ys else y :: insertKey s x ys

/-- Stable insertion sort of sort keys under an ORDER BY directive, as the
order-by operator materializes and sorts the upstream rows. -/
def sortKeys (s : OrderSpec) (l : List (Option String)) :
    List (Option String) :=
  l.foldr (insertKey s) []

/-! ## Transactions and the structural-drop executors

Modelled from the spec: the `_Transaction` implementation is not among the
provided sources; only its consumers (`DropIndex.execute`,
`DropSequence.execute`) are.  A transaction is a committed base state
under a stack of pending change sets (innermost scope first); `fork` pushes
an empty scope, `rollback` discards the innermost scope, and `fullCommit`
folds every scope into the base, returning the now-committed scope.
Rollback only ever discards pending scopes: it never touches the committed
base.

The executors themselves are embedded from
`src/execution/schema-amends/drop-index.ts` and the `DropSequence` source:
`execute` performs `t = t.fullCommit()`, applies the drop (if the planning
phase resolved a target), performs `t = t.fork()`, and returns
`noData(t, ...)` with command tag `DROP`. -/

/-- Committed storage state: live rows, index names and sequence names. -/
structure TxState : Type where
  rows : List Nat
  indexes : List String
  sequences : List String
deriving Repr, DecidableEq

/-- A row-level pending change, recordable inside a transaction scope. -/
inductive Change : Type where
  | insertRow : Nat → Change
  | deleteRow : Nat → Change
deriving Repr, DecidableEq

/-- Apply one pending change to a state. -/
def applyChange (s : TxState) : Change → TxState
  | .insertRow r => { s with rows := s.rows ++ [r] }
  | .deleteRow r => { s with rows := s.rows.erase r }

/-- Apply a list of pending changes, oldest first. -/
def applyChanges (s : TxState) (cs : List Change) : TxState :=
  cs.foldl applyChange s

/-- A transaction chain: a committed base state under a stack of pending
change sets, innermost (current) scope first. -/
structure Transaction : Type where
  base : TxState
  pendings : List (List Change)
  isOpen : Bool
deriving Repr, DecidableEq

/-- The state visible through the transaction: every pending scope layered
(outermost first) over the committed base. -/
def Transaction.visible (t : Transaction) : TxState :=
  t.pendings.reverse.foldl applyChanges t.base

/-- Fork a new open child scope with no pending changes of its own. -/
def Transaction.fork (t : Transaction) : Transaction :=
  { t with pendings := [] :: t.pendings, isOpen := true }

/-- Record a pending change in the current (innermost) scope. -/
def Transaction.record (t : Transaction) (c : Change) : Transaction :=
  match t.pendings with
  | [] => { t with pendings := [[c]] }
  | p :: ps => { t with pendings := (p ++ [c]) :: ps }

/-- Roll back the innermost scope: its pending changes are discarded; the
committed base is untouched. -/
def Transaction.rollback (t : Transaction) : Transaction :=
  match t.pendings with
  | [] => { t with isOpen := false }
  | _ :: ps => { t with pendings := ps, isOpen := false }

/-- Commit every scope of the chain into the committed base, returning the
now-committed scope with nothing pending. -/
def Transaction.fullCommit (t : Transaction) : Transaction :=
  { base := t.visible, pendings := [], isOpen := false }

/-- Result descriptor returned by a statement executor: the transaction the
caller continues in, plus a command tag. -/
structure ResultDesc : Type where
  tx : Transaction
  tag : String
deriving Repr, DecidableEq

/-- Descriptor for a statement producing no rows (`ExecHelper.noData`). -/
def noData (t : Transaction) (tag : String) : ResultDesc := ⟨t, tag⟩

/-- The `DropIndex` executor after planning: the resolved target index, or
`none` when `IF EXISTS` swallowed a missing target into a no-op. -/
structure DropIndex : Type where
  idx : Option String
deriving Repr, DecidableEq

/-- Drop an index from a committed scope: the index set is mutated directly
in the base, not recorded as a pending change. -/
def dropIndexOn (t : Transaction) (name : String) : Transaction :=
  { t with base := { t.base with indexes := t.base.indexes.erase name } }

/-- Embedded from `DropIndex.execute`: full-commit, drop (if resolved),
fork, return `noData(t, ...)` tagged `DROP`. -/
def DropIndex.execute (e : DropIndex) (t : Transaction) : ResultDesc :=
  let t1 := t.fullCommit
  let t2 := match e.idx with
    | some name => dropIndexOn t1 name
    | none => t1
  let t3 := t2.fork
  noData t3 "DROP"

/-- The `DropSequence` executor after planning: the resolved target
sequence, or `none` under `IF EXISTS` with a missing target. -/
structure DropSequence : Type where
  seq : Option String
deriving Repr, DecidableEq

/-- Drop a sequence from a committed scope: the sequence set is mutated
directly in the base, not recorded as a pending change. -/
def dropSequenceOn (t : Transaction) (name : String) : Transaction :=
  { t with base := { t.base with sequences := t.base.sequences.erase name } }

/-- Embedded from the `DropSequence.execute` source: full-commit, drop (if
resolved), fork, return `noData(t, ...)` tagged `DROP`. -/
def DropSequence.execute (e : DropSequence) (t : Transaction) : ResultDesc :=
  let t1 := t.fullCommit
  let t2 := match e.seq with
    | some name => dropSequenceOn t1 name
    | none => t1
  let t3 := t2.fork
  noData t3 "DROP"

/-! ## The `Query` statement dispatcher (`src/query.ts`)

The planning loop of `Query.executeSelect`, the `Query.executeUpdate` stub
and the `Query.executeInsert` loop are embedded from `src/query.ts`.  The
enumeration of a join tree (`transforms/join.ts`) and of a projection are
not among the provided sources and are modelled from the spec's left-join
and Project operator descriptions. -/

/-- Scalar values stored in tables (type conversions happen in expression
code outside the embedded sources and are not modelled). -/
abbrev Val : Type := Int

/-- A row: an ordered mapping from column name to nullable value. -/
abbrev Row : Type := List (String × Option Val)

/-- A table: its column schema and its rows. -/
structure TableDef : Type where
  cols : List String
  rows : List Row
deriving Repr, DecidableEq

/-- The schema registry: named tables. -/
abbrev Db : Type := List (String × TableDef)

/-- Look a table up in the registry (`db.getTable`). -/
def getTable (db : Db) (name : String) : Option TableDef :=
  (db.find? (fun e => e.1 == name)).map (·.2)

/-- Errors raised by `query.ts`, one constructor per thrown class:
`NotSupported`, a plain `new Error(...)`, a JS `TypeError` crash,
`QueryError` and `TableNotFound`. -/
inductive Err : Type where
  | notSupported : String → Err
  | jsError : String → Err
  | typeError : String → Err
  | queryError : String → Err
  | tableNotFoundErr : String → Err
deriving Repr, DecidableEq

/-- ON / WHERE predicate AST (the fragment the claims need). -/
inductive Pred : Type where
  | always : Pred
  | eqCols : String → String → Pred
deriving Repr, DecidableEq

/-- One entry of a SELECT FROM list: table name, optional alias (the AST
field `as`), the raw join-kind string of the AST (`from.join`) and the ON
predicate. -/
structure FromItem : Type where
  table : String
  als : Option String
  joinKind : Option String
  onPred : Option Pred
deriving Repr, DecidableEq

/-- The selection tree built by planning: base table scans and
`JoinSelection` nodes carrying the two operands, the ON predicate and the
`innerJoin` flag. -/
inductive SelTree : Type where
  | base : String → Option String → SelTree
  | joinSel : SelTree → SelTree → Option Pred → Bool → SelTree
deriving Repr, DecidableEq

/-- Message of the duplicate-alias `new Error` in `executeSelect`. -/
def dupAliasMsg (name : String) : String :=
  "Table name \"" ++ name ++ "\" specified more than once"

/-- Embedded from the FROM-list loop of `Query.executeSelect`: `t` is the
selection built so far (`undefined` before the first entry), `aliases` the
alias set.  The loop tests membership in `aliases` but never inserts into
it, exactly as the source does; the join construction mirrors the
`switch (from.join)` of the source, including the flag expression
`from.join === INNER-JOIN` inside the RIGHT-JOIN case. -/
def buildFromAux (db : Db) (t : Option SelTree) (aliases : List String) :
    List FromItem → Except Err SelTree
  | [] =>
    match t with
    | some s => .ok s
    | none => .error (.typeError "no FROM entry produced a selection")
  | f :: rest =>
    if f.table = "" then .error (.notSupported "no table name")
    else if (f.als.getD f.table) ∈ aliases then
      .error (.jsError (dupAliasMsg (f.als.getD f.table)))
    else
      match getTable db f.table with
      | none => .error (.typeError ("no table " ++ f.table))
      | some _ =>
        let newT := SelTree.base f.table f.als
        match t with
        | none => buildFromAux db (some newT) aliases rest
        | some cur =>
          match f.joinKind with
          | some "RIGHT JOIN" =>
            buildFromAux db
              (some (.joinSel newT cur f.onPred
                (f.joinKind == some "INNER JOIN"))) aliases rest
          | some "INNER JOIN" =>
            buildFromAux db (some (.joinSel cur newT f.onPred true))
              aliases rest
          | some "LEFT JOIN" =>
            buildFromAux db (some (.joinSel cur newT f.onPred false))
              aliases rest
          | _ => .error (.notSupported "Joint type not supported")

/-- Look a column up in a row. -/
def lookupCol (r : Row) (c : String) : Option Val :=
  match r.find? (fun e => e.1 == c) with
  | some e => e.2
  | none => none

/-- Evaluate an ON / WHERE predicate on a row; a NULL operand never
satisfies the predicate. -/
def evalPred (p : Option Pred) (r : Row) : Bool :=
  match p with
  | none => true
  | some .always => true
  | some (.eqCols a b) =>
    match lookupCol r a, lookupCol r b with
    | some x, some y => x == y
    | _, _ => false

/-- Column schema of a selection tree. -/
def schemaOf (db : Db) : SelTree → List String
  | .base tbl _ => ((getTable db tbl).map (·.cols)).getD []
  | .joinSel l r _ _ => schemaOf db l ++ schemaOf db r

/-- All-NULL row over a column list. -/
def nullRow (cols : List String) : Row := cols.map (fun c => (c, none))

/-- Modelled from the spec: enumeration of a selection tree.  A join node
runs the left-join algorithm over its stored operands: for each left row,
the matching right rows are emitted; with no match, an inner join emits
nothing and a left join emits the left row padded with NULL right
columns. -/
def rowsOf (db : Db) : SelTree → List Row
  | .base tbl _ => ((getTable db tbl).map (·.rows)).getD []
  | .joinSel l r onp inner =>
    (rowsOf db l).flatMap (fun lr =>
      let hits := (rowsOf db r).filter (fun rr => evalPred onp (lr ++ rr))
      if hits.isEmpty then
        if inner then [] else [lr ++ nullRow (schemaOf db r)]
      else hits.map (fun rr => lr ++ rr))

/-- Modelled from the spec: the Project operator evaluates the declared
output columns, in declared order, against each input row. -/
def projectRow (cols : List String) (r : Row) : Row :=
  cols.map (fun c => (c, lookupCol r c))

/-- A SELECT statement: FROM list, WHERE clause, declared output columns. -/
structure SelectStmt : Type where
  fromItems : List FromItem
  whereC : Option Pred
  columns : List String
deriving Repr, DecidableEq

/-- Embedded from `Query.executeSelect`: build the join tree over the FROM
list, filter by WHERE, project the declared columns, enumerate. -/
def executeSelect (db : Db) (p : SelectStmt) : Except Err (List Row) :=
  match buildFromAux db none [] p.fromItems with
  | .error e => .error e
  | .ok tree =>
    .ok (((rowsOf db tree).filter (evalPred p.whereC)).map
      (projectRow p.columns))

/-- An UPDATE statement (its payload is irrelevant: the executor ignores
it). -/
structure UpdateStmt : Type where
  table : String
deriving Repr, DecidableEq

/-- Embedded from `Query.executeUpdate`: the executor body is exactly
`throw new Error(...)` with the message given below. -/
def executeUpdate (_p : UpdateStmt) : Except Err (List Row) :=
  .error (.jsError "Method not implemented.")

/-- One values tuple of an INSERT, with its AST node type tag. -/
structure ValuesTuple : Type where
  typ : String
  value : List Val
deriving Repr, DecidableEq

/-- Embedded from the values loop of `Query.executeInsert`: tuples are
processed in order; a tuple that is not an `expr_list` raises
`NotSupported` and a column/value count mismatch raises `QueryError`, in
both cases leaving the rows inserted by earlier iterations in place; a
well-formed tuple is zipped with the column list and inserted before the
next iteration. -/
def insertLoop (tbl : TableDef) (cols : List String) :
    List ValuesTuple → TableDef × Option Err
  | [] => (tbl, none)
  | v :: rest =>
    if v.typ ≠ "expr_list" then
      (tbl, some (.notSupported ("insert value type " ++ v.typ)))
    else if v.value.length ≠ cols.length then
      (tbl, some (.queryError "Insert columns / values count mismatch"))
    else
      insertLoop { tbl with rows := tbl.rows ++ [cols.zip (v.value.map some)] }
        cols rest

/-- An INSERT statement: AST node type, table list, optional column list,
values tuples. -/
structure InsertStmt : Type where
  typ : String
  table : List String
  columns : Option (List String)
  values : List ValuesTuple
deriving Repr, DecidableEq

/-- Embedded from `Query.executeInsert`: validate the statement shape,
resolve the table, default the column list to the table schema, then run
the values loop; the registry as mutated so far is returned together with
the error, as a thrown exception does not undo prior `t.insert` calls. -/
def executeInsertStmt (db : Db) (p : InsertStmt) : Db × Option Err :=
  if p.typ ≠ "insert" then (db, some (.notSupported "not an insert"))
  else if p.table.length ≠ 1 then (db, some (.notSupported "table list"))
  else
    match p.table with
    | [intoTable] =>
      if intoTable = "" then (db, some (.notSupported "no table name"))
      else
        match getTable db intoTable with
        | none => (db, some (.tableNotFoundErr intoTable))
        | some t =>
          let cols := p.columns.getD t.cols
          let (t2, err) := insertLoop t cols p.values
          (db.map (fun e => if e.1 == intoTable then (e.1, t2) else e), err)
    | _ => (db, some (.notSupported "table list"))

/-- A statement, as dispatched by the `switch (p.type)` of `Query._query`. -/
inductive Stmt : Type where
  | insertStmt : InsertStmt → Stmt
  | updateStmt : UpdateStmt → Stmt
  | selectStmt : SelectStmt → Stmt
deriving Repr, DecidableEq

/-- Embedded from `Query._query`: dispatch one statement to its executor,
returning the (possibly mutated) registry and the statement outcome. -/
def dispatchStatement (db : Db) :
    Stmt → Db × Except Err (List Row)
  | .selectStmt p => (db, executeSelect db p)
  | .updateStmt p => (db, executeUpdate p)
  | .insertStmt p =>
    match executeInsertStmt db p with
    | (db2, none) => (db2, .ok [])
    | (db2, some e) => (db2, .error e)

/-! ## Concrete inputs used by witnesses and counterexamples -/

/-- A registry with tables `ta` (column `a`, one row) and `tb` (column `b`,
two rows). -/
def dbW : Db :=
  [("ta", ⟨["a"], [[("a", some 1)]]⟩),
   ("tb", ⟨["b"], [[("b", some 1)], [("b", some 2)]]⟩)]

/-- The `tb` table of `dbW`. -/
def tdW : TableDef := ⟨["b"], [[("b", some 1)], [("b", some 2)]]⟩

/-- FROM entry joining `tb` with a RIGHT JOIN on `a = b`. -/
def fW : FromItem := ⟨"tb", none, some "RIGHT JOIN", some (.eqCols "a" "b")⟩

/-- FROM entry joining `tb` with a LEFT JOIN on `a = b`. -/
def gW : FromItem := ⟨"tb", none, some "LEFT JOIN", some (.eqCols "a" "b")⟩

/-- FROM entry joining `tb` with an INNER JOIN on `a = b`. -/
def hW : FromItem := ⟨"tb", none, some "INNER JOIN", some (.eqCols "a" "b")⟩

/-- First FROM entry selecting `ta`. -/
def firstW : FromItem := ⟨"ta", none, none, none⟩

/-- The selection already built when the join entry is reached. -/
def curW : SelTree := .base "ta" none

/-- A SELECT with a RIGHT JOIN and declared output columns `a, b`. -/
def selW : SelectStmt := ⟨[firstW, fW], none, ["a", "b"]⟩

/-- The rows `selW` produces on `dbW`. -/
def resW : List Row :=
  [[("a", some 1), ("b", some 1)], [("a", none), ("b", some 2)]]

/-! ## Theorems -/

/-- Values of strictly smaller type rank compare LESS (and, flipped,
GREATER): cross-rank jsonb comparison is decided by `typeRank` alone. -/
theorem cmpJ_rank_lt (a b : JsonValue) (h : typeRank a < typeRank b) :
    cmpJ a b = .lt ∧ cmpJ b a = .gt := by
  cases a <;> cases b <;> simp [typeRank] at h <;> constructor <;> rfl

/-- C3 (amended).  For every pair of jsonb values of different type ranks,
the structural comparator orders them by the rank sequence
array < NULL-json-value < boolean < number < string < object; in
particular every array value compares LESS than every object value and
LESS than the json null value. -/
theorem jsonb_cross_rank_order (a b : JsonValue)
    (h : typeRank a < typeRank b) :
    (cmpJ a b = .lt ∧ cmpJ b a = .gt) ∧
    (∀ (xs : List JsonValue) (bb : Bool) (n : Int) (s : String)
        (kvs : List (String × JsonValue)),
      typeRank (.jarr xs) < typeRank .jnull ∧
      typeRank .jnull < typeRank (.jbool bb) ∧
      typeRank (.jbool bb) < typeRank (.jnum n) ∧
      typeRank (.jnum n) < typeRank (.jstr s) ∧
      typeRank (.jstr s) < typeRank (.jobj kvs)) ∧
    (∀ (xs : List JsonValue) (kvs : List (String × JsonValue)),
      cmpJ (.jarr xs) (.jobj kvs) = .lt) ∧
    (∀ xs : List JsonValue, cmpJ (.jarr xs) .jnull = .lt) := by
  refine ⟨cmpJ_rank_lt a b h, ?_, ?_, ?_⟩
  · intro xs bb n s kvs
    simp [typeRank]
  · intro xs kvs
    exact (cmpJ_rank_lt (.jarr xs) (.jobj kvs) (by simp [typeRank])).1
  · intro xs
    exact (cmpJ_rank_lt (.jarr xs) .jnull (by simp [typeRank])).1

/-- Witness for `jsonb_cross_rank_order` at the concrete pair of a boolean
and a string: the rank hypothesis holds there and the comparator orders
them accordingly. -/
theorem jsonb_cross_rank_order_witness :
    typeRank (.jbool true) < typeRank (.jstr "x") ∧
    (cmpJ (.jbool true) (.jstr "x") = .lt ∧
      cmpJ (.jstr "x") (.jbool true) = .gt) :=
  ⟨by decide,
    (jsonb_cross_rank_order (.jbool true) (.jstr "x") (by decide)).1⟩

/-- C3 counterexample.  The claim as stated requires every array to compare
GREATER than the json null value; the comparator (matching the test of the
repository asserting that `[]` is below json `null`) puts the empty array
strictly below the json null value. -/
theorem jsonb_array_below_null_counterexample :
    jsonbGt (JsonValue.jarr []) JsonValue.jnull = false ∧
    jsonbLt (JsonValue.jarr []) JsonValue.jnull = true := by
  constructor <;> rfl

/-- C4.  The exact truth table of the `orders jsonb values` test suite of
the repository: the eleven true comparisons hold and the six falsifying
comparisons evaluate to false. -/
theorem jsonb_truth_table :
    jsonbGt (.jobj []) (.jarr []) = true ∧
    jsonbGt (.jobj []) (.jnum 1) = true ∧
    jsonbLt (.jarr []) (.jnum 1) = true ∧
    jsonbGt (.jobj [("a", .jstr "b")]) (.jobj [("a", .jstr "a")]) = true ∧
    jsonbGe (.jobj [("a", .jstr "a"), ("b", .jstr "c")])
      (.jobj [("a", .jstr "a")]) = true ∧
    jsonbGe (.jobj []) .jnull = true ∧
    jsonbGe (.jnum 1) .jnull = true ∧
    jsonbLt (.jarr []) .jnull = true ∧
    jsonbGt (.jarr [.jnum 1, .jnum 2]) (.jarr [.jnum 1]) = true ∧
    jsonbGt (.jarr [.jnum 2, .jnum 2]) (.jarr [.jnum 1, .jnum 2]) = true ∧
    jsonbEq .jnull .jnull = true ∧
    jsonbGt (.jobj [("a", .jstr "a")]) (.jobj [("a", .jstr "a")]) = false ∧
    jsonbLt (.jobj []) (.jarr []) = false ∧
    jsonbGe (.jarr []) .jnull = false ∧
    jsonbGt (.jarr [.jnum 1, .jnum 2])
      (.jarr [.jnum 1, .jnum 2, .jnum 3]) = false ∧
    jsonbGt (.jarr [.jnum 2, .jnum 2])
      (.jarr [.jnum 1, .jnum 2, .jnum 3]) = false ∧
    jsonbEq (.jarr [.jnum 2, .jnum 2]) .jnull = false := by
  repeat constructor

/-- C5.  A comparison operator in eq/lt/le/gt/ge with SQL NULL on either
side evaluates to a NULL result, for operands of every value type. -/
theorem comparison_with_sql_null_is_null {V : Type} (cmp : V → V → Ordering)
    (op : CmpOp) (a b : Option V) (h : a = none ∨ b = none) :
    evalComparison cmp op a b = none := by
  rcases h with h | h
  · subst h; cases b <;> rfl
  · subst h; cases a <;> rfl

/-- Witness for `comparison_with_sql_null_is_null`: equality of an empty
jsonb object against SQL NULL yields NULL, as the repository tests. -/
theorem comparison_with_sql_null_is_null_witness :
    ((some (JsonValue.jobj []) : Option JsonValue) = none ∨
      (none : Option JsonValue) = none) ∧
    evalComparison cmpJ CmpOp.eq (some (JsonValue.jobj [])) none = none :=
  ⟨Or.inr rfl,
    comparison_with_sql_null_is_null cmpJ CmpOp.eq (some (JsonValue.jobj []))
      none (Or.inr rfl)⟩

/-- C6.  With no NULLS clause, ascending order sorts NULL after every
non-null key and descending order sorts NULL before every non-null key;
an explicit NULLS FIRST / NULLS LAST directive overrides the default
independently of the direction.  On the example rows of the spec,
DESC NULLS LAST yields b, a, NULL while plain DESC yields NULL, b, a. -/
theorem order_by_null_placement :
    (∀ v : String, cmpKey ⟨false, none⟩ none (some v) = .gt ∧
      cmpKey ⟨false, none⟩ (some v) none = .lt) ∧
    (∀ v : String, cmpKey ⟨true, none⟩ none (some v) = .lt ∧
      cmpKey ⟨true, none⟩ (some v) none = .gt) ∧
    (∀ (d : Bool) (v : String),
      cmpKey ⟨d, some .last⟩ none (some v) = .gt ∧
      cmpKey ⟨d, some .last⟩ (some v) none = .lt) ∧
    (∀ (d : Bool) (v : String),
      cmpKey ⟨d, some .first⟩ none (some v) = .lt ∧
      cmpKey ⟨d, some .first⟩ (some v) none = .gt) ∧
    sortKeys ⟨false, none⟩ [some "b", some "a", none]
      = [some "a", some "b", none] ∧
    sortKeys ⟨true, none⟩ [some "b", some "a", none]
      = [none, some "b", some "a"] ∧
    sortKeys ⟨true, some .last⟩ [some "b", some "a", none]
      = [some "b", some "a", none] ∧
    sortKeys ⟨true, some .first⟩ [some "b", some "a", none]
      = [none, some "b", some "a"] := by
  refine ⟨fun v => ⟨rfl, rfl⟩, fun v => ⟨rfl, rfl⟩,
    fun d v => ⟨?_, ?_⟩, fun d v => ⟨?_, ?_⟩, ?_, ?_, ?_, ?_⟩ <;>
    first
      | decide
      | simp [cmpKey, nullsFirstOf]

/-- Rollback discards pending scopes only: the committed base state of a
transaction can never be undone by a rollback. -/
theorem rollback_preserves_base (t : Transaction) :
    (Transaction.rollback t).base = t.base := by
  obtain ⟨b, ps, o⟩ := t
  cases ps <;> rfl

/-- C2.  `DropIndex.execute` and `DropSequence.execute` first perform
`fullCommit` (folding every pending scope of the chain into the committed
base, where no rollback can reach it), then apply the drop against that
committed scope, then fork, and return the open fresh fork with command
tag `DROP`. -/
theorem drop_executors_full_commit_then_fork (ei : DropIndex)
    (es : DropSequence) (t : Transaction) :
    (DropIndex.execute ei t).tag = "DROP" ∧
    (DropIndex.execute ei t).tx
      = (match ei.idx with
          | some name => dropIndexOn t.fullCommit name
          | none => t.fullCommit).fork ∧
    (DropIndex.execute ei t).tx.isOpen = true ∧
    (DropIndex.execute ei t).tx.pendings = [[]] ∧
    (DropSequence.execute es t).tag = "DROP" ∧
    (DropSequence.execute es t).tx
      = (match es.seq with
          | some name => dropSequenceOn t.fullCommit name
          | none => t.fullCommit).fork ∧
    (DropSequence.execute es t).tx.isOpen = true ∧
    (DropSequence.execute es t).tx.pendings = [[]] ∧
    t.fullCommit.base = t.visible ∧
    t.fullCommit.pendings = [] ∧
    (∀ u : Transaction, (Transaction.rollback u).base = u.base) := by
  obtain ⟨idx⟩ := ei
  obtain ⟨seq⟩ := es
  refine ⟨?_, ?_, ?_, ?_, ?_, ?_, ?_, ?_, rfl, rfl,
    fun u => rollback_preserves_base u⟩ <;>
    cases idx <;> cases seq <;> rfl

/-- C10.  A `DROP INDEX IF EXISTS` / `DROP SEQUENCE IF EXISTS` whose target
was not resolved at planning time (a recorded no-op) still performs the
unconditional `fullCommit`: the returned descriptor carries tag `DROP` and
an open fresh fork whose committed base holds every formerly pending
change of the chain, even though nothing was dropped. -/
theorem drop_if_exists_noop_still_full_commits (t : Transaction) :
    DropIndex.execute ⟨none⟩ t = ⟨t.fullCommit.fork, "DROP"⟩ ∧
    DropSequence.execute ⟨none⟩ t = ⟨t.fullCommit.fork, "DROP"⟩ ∧
    (DropIndex.execute ⟨none⟩ t).tx.base = t.visible ∧
    (DropSequence.execute ⟨none⟩ t).tx.base = t.visible ∧
    (DropIndex.execute ⟨none⟩ t).tx.isOpen = true ∧
    (DropIndex.execute ⟨none⟩ t).tx.pendings = [[]] ∧
    (∀ u : Transaction, (Transaction.rollback u).base = u.base) :=
  ⟨rfl, rfl, rfl, rfl, rfl, rfl, fun u => rollback_preserves_base u⟩

/-- The projected columns of a row are exactly the declared column list, in
declared order. -/
theorem projectRow_fst (cols : List String) (r : Row) :
    (projectRow cols r).map Prod.fst = cols := by
  induction cols with
  | nil => rfl
  | cons c cs ih => simpa [projectRow] using ih

/-- C1.  A RIGHT JOIN entry builds the same `JoinSelection` node as a LEFT
JOIN entry with the two operands swapped — with the `innerJoin` flag
`false`, never the `true` of an INNER JOIN — and the rows a SELECT
produces carry their columns in the originally declared SELECT order,
independent of the internal operand swap. -/
theorem right_join_is_swapped_left (db : Db) (cur : SelTree)
    (f g h : FromItem) (rest : List FromItem) (al : List String)
    (td : TableDef)
    (hj : f.joinKind = some "RIGHT JOIN")
    (hgj : g.joinKind = some "LEFT JOIN")
    (hhj : h.joinKind = some "INNER JOIN")
    (hgt : g.table = f.table) (hga : g.als = f.als) (hgo : g.onPred = f.onPred)
    (hht : h.table = f.table) (hha : h.als = f.als) (hho : h.onPred = f.onPred)
    (ht : ¬ f.table = "")
    (ha : (f.als.getD f.table) ∉ al)
    (hg : getTable db f.table = some td) :
    buildFromAux db (some cur) al (f :: rest)
      = buildFromAux db
          (some (.joinSel (.base f.table f.als) cur f.onPred false)) al rest ∧
    buildFromAux db (some cur) al (g :: rest)
      = buildFromAux db
          (some (.joinSel cur (.base f.table f.als) f.onPred false)) al rest ∧
    buildFromAux db (some cur) al (h :: rest)
      = buildFromAux db
          (some (.joinSel cur (.base f.table f.als) f.onPred true)) al rest ∧
    (∀ p res, executeSelect db p = .ok res →
      ∀ r ∈ res, r.map Prod.fst = p.columns) := by
  refine ⟨?_, ?_, ?_, ?_⟩
  · simp [buildFromAux, ht, ha, hg, hj]
  · simp [buildFromAux, hgt, hga, hgo, hgj, ht, ha, hg]
  · simp [buildFromAux, hht, hha, hho, hhj, ht, ha, hg]
  · intro p res hres r hr
    cases hb : buildFromAux db none [] p.fromItems with
    | error e => simp [executeSelect, hb] at hres
    | ok tree =>
      simp only [executeSelect, hb] at hres
      injection hres with hres
      subst hres
      obtain ⟨rr, hrr, rfl⟩ := List.mem_map.mp hr
      exact projectRow_fst p.columns rr

/-- Witness for `right_join_is_swapped_left` on `dbW`: the concrete RIGHT
JOIN entry `fW` builds the swapped-operand node with flag `false`, and a
row the RIGHT JOIN query `selW` actually produces carries its columns in
the declared order `a, b` even though the operands were swapped. -/
theorem right_join_is_swapped_left_witness :
    buildFromAux dbW (some curW) [] [fW]
      = buildFromAux dbW
          (some (.joinSel (.base "tb" none) curW
            (some (.eqCols "a" "b")) false)) [] [] ∧
    ([("a", some 1), ("b", some 1)] : Row).map Prod.fst = selW.columns :=
  ⟨(right_join_is_swapped_left dbW curW fW gW hW [] [] tdW rfl rfl rfl rfl
      rfl rfl rfl rfl rfl (by decide) (by simp) rfl).1,
   (right_join_is_swapped_left dbW curW fW gW hW [] [] tdW rfl rfl rfl rfl
      rfl rfl rfl rfl rfl (by decide) (by simp) rfl).2.2.2 selW resW
      (by rfl) [("a", some 1), ("b", some 1)] (by decide)⟩

/-- C7 counterexample.  The table `ta` exists in `dbW`, yet dispatching an
UPDATE against it fails with the unimplemented-method error instead of
succeeding. -/
theorem update_on_existing_table_counterexample :
    getTable dbW "ta" = some ⟨["a"], [[("a", some 1)]]⟩ ∧
    dispatchStatement dbW (.updateStmt ⟨"ta"⟩)
      = (dbW, .error (.jsError "Method not implemented.")) :=
  ⟨rfl, rfl⟩

/-- C7 (amended).  UPDATE is a dispatched statement kind, but its executor
is an unimplemented stub: every UPDATE fails unconditionally with the
error message `Method not implemented.`, mutating nothing. -/
theorem executeUpdate_always_unimplemented (db : Db) (p : UpdateStmt) :
    dispatchStatement db (.updateStmt p)
      = (db, .error (.jsError "Method not implemented.")) := rfl

/-- C8.  The duplicate-alias check of `executeSelect` tests membership in
an alias set that is never added to, so it can never fire: no FROM list
ever produces the duplicate-alias error, and the concrete FROM list using
the unaliased table name `ta` twice plans successfully instead of raising
a planning-time QueryError. -/
theorem duplicate_alias_check_never_fires :
    (∀ (db : Db) (tOpt : Option SelTree) (fs : List FromItem)
        (name : String),
      buildFromAux db tOpt [] fs ≠ .error (.jsError (dupAliasMsg name))) ∧
    buildFromAux dbW none []
        [⟨"ta", none, none, none⟩,
         ⟨"ta", none, some "LEFT JOIN", some (.eqCols "a" "a")⟩]
      = .ok (.joinSel (.base "ta" none) (.base "ta" none)
          (some (.eqCols "a" "a")) false) := by
  constructor
  · intro db tOpt fs name
    induction fs generalizing tOpt with
    | nil => cases tOpt <;> simp [buildFromAux]
    | cons f rest ih =>
      intro hcontra
      simp only [buildFromAux, List.not_mem_nil, if_false] at hcontra
      repeat' split at hcontra
      all_goals first
        | exact ih _ hcontra
        | simp at hcontra
  · rfl

/-- C9 counterexample.  A two-tuple INSERT whose second tuple has the wrong
arity raises the QueryError, yet the row from the first tuple remains
inserted — contradicting the claim that no row of the INSERT remains. -/
theorem insert_mismatch_counterexample :
    insertLoop ⟨["a"], []⟩ ["a"]
        [⟨"expr_list", [1]⟩, ⟨"expr_list", [2, 3]⟩]
      = (⟨["a"], [[("a", some 1)]]⟩,
         some (.queryError "Insert columns / values count mismatch")) := rfl

/-- C9 (amended).  When a values tuple has the wrong arity, the QueryError
is raised and the mismatched tuple and all following tuples are not
inserted, but the tuples preceding the mismatched one remain inserted:
the table keeps exactly the rows of the well-formed leading tuples. -/
theorem insert_mismatch_keeps_earlier_rows (tbl : TableDef)
    (cols : List String) (pre : List ValuesTuple) (v : ValuesTuple)
    (rest : List ValuesTuple)
    (hpre : ∀ u ∈ pre, u.typ = "expr_list" ∧ u.value.length = cols.length)
    (hv : v.typ = "expr_list") (hm : v.value.length ≠ cols.length) :
    insertLoop tbl cols (pre ++ v :: rest)
      = ({ tbl with rows := tbl.rows
            ++ pre.map (fun u => cols.zip (u.value.map some)) },
         some (.queryError "Insert columns / values count mismatch")) := by
  induction pre generalizing tbl with
  | nil => simp [insertLoop, hv, hm]
  | cons u pre ih =>
    obtain ⟨hu1, hu2⟩ := hpre u (List.mem_cons_self u pre)
    simp only [List.cons_append, insertLoop, hu1, hu2, List.append_eq]
    rw [ih _ (fun w hw => hpre w (List.mem_cons_of_mem u hw))]
    simp

/-- Witness for `insert_mismatch_keeps_earlier_rows` at the inputs of the
counterexample: one well-formed leading tuple, then a two-value tuple
against a one-column list. -/
theorem insert_mismatch_keeps_earlier_rows_witness :
    (([2, 3] : List Val).length ≠ (["a"] : List String).length) ∧
    insertLoop ⟨["a"], []⟩ ["a"]
        ([⟨"expr_list", [1]⟩] ++ ⟨"expr_list", [2, 3]⟩ :: [])
      = (⟨["a"], [[("a", some 1)]]⟩,
         some (.queryError "Insert columns / values count mismatch")) :=
  ⟨by decide,
    insert_mismatch_keeps_earlier_rows ⟨["a"], []⟩ ["a"]
      [⟨"expr_list", [1]⟩] ⟨"expr_list", [2, 3]⟩ [] (by decide) rfl
      (by decide)⟩

end PgMem
